import Mathlib

/-!
Verification of the `embedded-hal` digital I/O module (`src/digital.rs`).

The Rust code declares two capability traits, `OutputPin` (write `set_low` /
`set_high`) and `StatefulOutputPin` (read back `is_set_high` / `is_set_low`),
derives a software `toggle` for any type with both capabilities, and provides
`CachedOutputPin`, a wrapper that grants read-back to a write-only pin by
caching the last commanded level in a boolean field.

We embed a trait implementation over a pin-state type `σ` as a record of
functions: a `&mut self` method becomes a state transformer `σ → σ`, a
`&self` method becomes a pure observation `σ → Bool`.  `CachedOutputPin` is
a structure holding the boolean cache and the inner pin state, and its
methods are translated literally from the source.  Call sequences are run by
folding over lists of operations.
-/

namespace Digital

variable {σ : Type}

/-- Implementation of the Rust trait `OutputPin` over a pin-state type `σ`:
both methods take `&mut self` and return `()`, so each is a state
transformer. -/
structure OutputPin (σ : Type) where
  set_low : σ → σ
  set_high : σ → σ

/-- Implementation of the Rust trait `StatefulOutputPin` over `σ`: both
methods take `&self` and return `bool`, so each is a pure observation. -/
structure StatefulOutputPin (σ : Type) where
  is_set_high : σ → Bool
  is_set_low : σ → Bool

/-- The derived toggle of `impl<P> ToggleableOutputPin for P where P:
toggleable::Default`, translated from the source body
`if self.is_set_low() { self.set_high() } else { self.set_low() }`. -/
def toggle (O : OutputPin σ) (S : StatefulOutputPin σ) (s : σ) : σ :=
  if S.is_set_low s then O.set_high s else O.set_low s

/-- The struct `CachedOutputPin<P>`: a boolean cache of the last commanded
level together with the wrapped inner pin. -/
structure CachedOutputPin (σ : Type) where
  state : Bool
  pin : σ

/-- Translation of `CachedOutputPin::new(pin, state)`:
`CachedOutputPin { pin, state }`. -/
def CachedOutputPin.new (pin : σ) (state : Bool) : CachedOutputPin σ :=
  { pin := pin, state := state }

/-- Translation of `CachedOutputPin::into_inner(self)`: `self.pin`. -/
def CachedOutputPin.into_inner (c : CachedOutputPin σ) : σ :=
  c.pin

/-- Translation of `CachedOutputPin::set_high`: `self.pin.set_high(); self.state = true;`,
parameterised by the inner pin implementation `O`. -/
def CachedOutputPin.set_high (O : OutputPin σ) (c : CachedOutputPin σ) :
    CachedOutputPin σ :=
  { pin := O.set_high c.pin, state := true }

/-- Translation of `CachedOutputPin::set_low`: `self.pin.set_low(); self.state = false;`. -/
def CachedOutputPin.set_low (O : OutputPin σ) (c : CachedOutputPin σ) :
    CachedOutputPin σ :=
  { pin := O.set_low c.pin, state := false }

/-- Translation of `CachedOutputPin::is_set_low`: `!self.state`. -/
def CachedOutputPin.is_set_low (c : CachedOutputPin σ) : Bool :=
  !c.state

/-- Translation of `CachedOutputPin::is_set_high`: `self.state`. -/
def CachedOutputPin.is_set_high (c : CachedOutputPin σ) : Bool :=
  c.state

/-- The `impl<P: OutputPin> OutputPin for CachedOutputPin<P>` instance. -/
def CachedOutputPin.outputPin (O : OutputPin σ) : OutputPin (CachedOutputPin σ) :=
  { set_low := CachedOutputPin.set_low O, set_high := CachedOutputPin.set_high O }

/-- The `impl<P: OutputPin> StatefulOutputPin for CachedOutputPin<P>` instance. -/
def CachedOutputPin.statefulOutputPin : StatefulOutputPin (CachedOutputPin σ) :=
  { is_set_high := CachedOutputPin.is_set_high,
    is_set_low := CachedOutputPin.is_set_low }

/-- A call through the `OutputPin` interface: `set_high()` or `set_low()`. -/
inductive SetCall where
  | setHigh : SetCall
  | setLow : SetCall
deriving DecidableEq, Repr

/-- Whether a set call commands the high level. -/
def SetCall.isHigh : SetCall → Bool
  | .setHigh => true
  | .setLow => false

/-- Run one `OutputPin` call on a `CachedOutputPin`. -/
def CachedOutputPin.applySet (O : OutputPin σ) (c : CachedOutputPin σ) :
    SetCall → CachedOutputPin σ
  | .setHigh => CachedOutputPin.set_high O c
  | .setLow => CachedOutputPin.set_low O c

/-- Run a sequence of `OutputPin` calls on a `CachedOutputPin`. -/
def CachedOutputPin.runSets (O : OutputPin σ) (calls : List SetCall)
    (c : CachedOutputPin σ) : CachedOutputPin σ :=
  calls.foldl (CachedOutputPin.applySet O) c

/-- Run the same sequence of `OutputPin` calls directly on the inner pin. -/
def innerRun (O : OutputPin σ) (calls : List SetCall) (p : σ) : σ :=
  calls.foldl
    (fun q call =>
      match call with
      | SetCall.setHigh => O.set_high q
      | SetCall.setLow => O.set_low q) p

/-- A call through any of the interfaces of `CachedOutputPin`: a set, the
derived toggle, or a read-back query. -/
inductive Op where
  | setHigh : Op
  | setLow : Op
  | opToggle : Op
  | isSetHigh : Op
  | isSetLow : Op
deriving DecidableEq, Repr

/-- State effect of one call on a `CachedOutputPin`.  The toggle case goes
through the derived `toggle` with the wrapper's own trait instances, as
`impl toggleable::Default for CachedOutputPin` does; the two read-back
calls take `&self` and so leave the state unchanged. -/
def CachedOutputPin.stepOp (O : OutputPin σ) (c : CachedOutputPin σ) :
    Op → CachedOutputPin σ
  | .setHigh => CachedOutputPin.set_high O c
  | .setLow => CachedOutputPin.set_low O c
  | .opToggle =>
      toggle (CachedOutputPin.outputPin O) CachedOutputPin.statefulOutputPin c
  | .isSetHigh => c
  | .isSetLow => c

/-- Run a sequence of calls on a `CachedOutputPin`. -/
def CachedOutputPin.runOps (O : OutputPin σ) (ops : List Op)
    (c : CachedOutputPin σ) : CachedOutputPin σ :=
  ops.foldl (CachedOutputPin.stepOp O) c

/-- One call lifted into an error monad.  Every method of the source returns
plain `()` or `bool` with no `Result`, no early return and no panic path, so
the faithful lifting of each call returns `Except.ok` of the pure step. -/
def CachedOutputPin.stepOpE (O : OutputPin σ) (c : CachedOutputPin σ) (op : Op) :
    Except Unit (CachedOutputPin σ) :=
  Except.ok (CachedOutputPin.stepOp O c op)

/-- Run a sequence of calls in the error monad. -/
def CachedOutputPin.runOpsE (O : OutputPin σ) :
    List Op → CachedOutputPin σ → Except Unit (CachedOutputPin σ)
  | [], c => Except.ok c
  | op :: ops, c => (CachedOutputPin.stepOpE O c op).bind (CachedOutputPin.runOpsE O ops)

/-- A call received by an inner pin, for instrumenting what the wrapper or
the derived toggle forwards to it. -/
inductive InnerCall where
  | setHigh : InnerCall
  | setLow : InnerCall
deriving DecidableEq, Repr

/-- The free instrumented `OutputPin`: its state is the log of calls it has
received, and each set call appends itself to the log. -/
def logOutputPin : OutputPin (List InnerCall) :=
  { set_low := fun t => t ++ [InnerCall.setLow],
    set_high := fun t => t ++ [InnerCall.setHigh] }

/-- A trivial inner pin with no observable state. -/
def unitOutputPin : OutputPin Unit :=
  { set_low := fun _ => (), set_high := fun _ => () }

/-- A `StatefulOutputPin` implementation over the log pin that violates the
read-back contract: both queries answer `false` in every state. -/
def lawlessStateful : StatefulOutputPin (List InnerCall) :=
  { is_set_high := fun _ => false, is_set_low := fun _ => false }

/-- Running set calls on the wrapper drives the inner pin through exactly the
same calls: the pin component of the result is the inner run. -/
theorem CachedOutputPin.pin_runSets (O : OutputPin σ) (calls : List SetCall)
    (c : CachedOutputPin σ) :
    (CachedOutputPin.runSets O calls c).pin = innerRun O calls c.pin := by
  induction calls generalizing c with
  | nil => rfl
  | cons call calls ih =>
      cases call <;>
        simpa [CachedOutputPin.runSets, innerRun, List.foldl,
          CachedOutputPin.applySet, CachedOutputPin.set_high,
          CachedOutputPin.set_low] using ih _

/-- The cache after a nonempty run of set calls records the last call. -/
theorem CachedOutputPin.state_runSets_append (O : OutputPin σ)
    (calls : List SetCall) (c : CachedOutputPin σ) (call : SetCall) :
    (CachedOutputPin.runSets O (calls ++ [call]) c).state = call.isHigh := by
  cases call <;>
    simp [CachedOutputPin.runSets, List.foldl_append, CachedOutputPin.applySet,
      CachedOutputPin.set_high, CachedOutputPin.set_low, SetCall.isHigh]

end Digital

namespace Digital

/-- C1: after any sequence of set calls followed by one more call, the
wrapper reports `is_set_high` exactly when that last call was `set_high` and
`is_set_low` exactly otherwise, and every call in the sequence has been
forwarded to the inner pin, whose state is the fold of the inner set
operations over the whole sequence. -/
theorem cached_set_sequence_spec (O : OutputPin σ) (calls : List SetCall)
    (c : CachedOutputPin σ) (call : SetCall) :
    (CachedOutputPin.runSets O (calls ++ [call]) c).is_set_high = call.isHigh
      ∧ (CachedOutputPin.runSets O (calls ++ [call]) c).is_set_low = !call.isHigh
      ∧ (CachedOutputPin.runSets O (calls ++ [call]) c).pin
          = innerRun O (calls ++ [call]) c.pin := by
  refine ⟨?_, ?_, CachedOutputPin.pin_runSets O (calls ++ [call]) c⟩ <;>
    simp [CachedOutputPin.is_set_high, CachedOutputPin.is_set_low,
      CachedOutputPin.state_runSets_append]

/-- C2: in every state reachable from any initial cache value by any
sequence of set and toggle (and read) calls, `is_set_high` is the negation
of `is_set_low`, so the two read-backs are never equal. -/
theorem cached_readback_invariant (O : OutputPin σ) (ops : List Op) (p : σ)
    (b : Bool) :
    (CachedOutputPin.runOps O ops (CachedOutputPin.new p b)).is_set_high
        = !(CachedOutputPin.runOps O ops (CachedOutputPin.new p b)).is_set_low
      ∧ ((CachedOutputPin.runOps O ops (CachedOutputPin.new p b)).is_set_high
          == (CachedOutputPin.runOps O ops (CachedOutputPin.new p b)).is_set_low)
        = false := by
  constructor
  · simp [CachedOutputPin.is_set_high, CachedOutputPin.is_set_low]
  · cases h : (CachedOutputPin.runOps O ops (CachedOutputPin.new p b)).state <;>
      simp [CachedOutputPin.is_set_high, CachedOutputPin.is_set_low, h]

/-- C3: for any implementation of both capabilities whose read-back obeys
the `StatefulOutputPin` contract (after `set_low` the pin reads as set low,
after `set_high` it does not, and `is_set_high` is always the negation of
`is_set_low`), the derived toggle flips the commanded level: from a state
reading low one toggle reads high, a second toggle reads low again, and a
double toggle restores both read-backs for every starting state. -/
theorem toggle_correct (O : OutputPin σ) (S : StatefulOutputPin σ)
    (hlow : ∀ s, S.is_set_low (O.set_low s) = true)
    (hhigh : ∀ s, S.is_set_low (O.set_high s) = false)
    (hinv : ∀ s, S.is_set_high s = !S.is_set_low s) (s : σ) :
    (S.is_set_low s = true → S.is_set_high (toggle O S s) = true)
      ∧ (S.is_set_low s = true →
          S.is_set_low (toggle O S (toggle O S s)) = true)
      ∧ S.is_set_high (toggle O S (toggle O S s)) = S.is_set_high s
      ∧ S.is_set_low (toggle O S (toggle O S s)) = S.is_set_low s := by
  cases h : S.is_set_low s <;>
    simp [toggle, h, hlow, hhigh, hinv]

/-- Witness for C3 at a concrete input: the cached wrapper around the unit
pin, starting from commanded level Low. -/
theorem toggle_correct_witness :
    (CachedOutputPin.statefulOutputPin.is_set_low
          (CachedOutputPin.new () false) = true →
        CachedOutputPin.statefulOutputPin.is_set_high
          (toggle (CachedOutputPin.outputPin unitOutputPin)
            CachedOutputPin.statefulOutputPin
            (CachedOutputPin.new () false)) = true)
      ∧ (CachedOutputPin.statefulOutputPin.is_set_low
            (CachedOutputPin.new () false) = true →
          CachedOutputPin.statefulOutputPin.is_set_low
            (toggle (CachedOutputPin.outputPin unitOutputPin)
              CachedOutputPin.statefulOutputPin
              (toggle (CachedOutputPin.outputPin unitOutputPin)
                CachedOutputPin.statefulOutputPin
                (CachedOutputPin.new () false))) = true)
      ∧ CachedOutputPin.statefulOutputPin.is_set_high
            (toggle (CachedOutputPin.outputPin unitOutputPin)
              CachedOutputPin.statefulOutputPin
              (toggle (CachedOutputPin.outputPin unitOutputPin)
                CachedOutputPin.statefulOutputPin
                (CachedOutputPin.new () false)))
          = CachedOutputPin.statefulOutputPin.is_set_high
              (CachedOutputPin.new () false)
      ∧ CachedOutputPin.statefulOutputPin.is_set_low
            (toggle (CachedOutputPin.outputPin unitOutputPin)
              CachedOutputPin.statefulOutputPin
              (toggle (CachedOutputPin.outputPin unitOutputPin)
                CachedOutputPin.statefulOutputPin
                (CachedOutputPin.new () false)))
          = CachedOutputPin.statefulOutputPin.is_set_low
              (CachedOutputPin.new () false) :=
  toggle_correct (CachedOutputPin.outputPin unitOutputPin)
    CachedOutputPin.statefulOutputPin
    (fun _ => rfl) (fun _ => rfl)
    (fun c => (Bool.not_not c.state).symm)
    (CachedOutputPin.new () false)

/-- C4: the derived toggle reads the commanded state via `is_set_low` and
branches once: when the read answers true it performs exactly the `set_high`
call, otherwise exactly the `set_low` call — no loop, retry or failure path. -/
theorem toggle_algorithm (O : OutputPin σ) (S : StatefulOutputPin σ) (s : σ) :
    (S.is_set_low s = true → toggle O S s = O.set_high s)
      ∧ (S.is_set_low s = false → toggle O S s = O.set_low s) := by
  constructor <;> intro h <;> simp [toggle, h]

/-- Witness for C4 at a concrete input: the log pin wrapped with low cache
takes the `set_high` branch, recording exactly one inner `set_high` call. -/
theorem toggle_algorithm_witness :
    (CachedOutputPin.statefulOutputPin.is_set_low
          (CachedOutputPin.new ([] : List InnerCall) false) = true →
        toggle (CachedOutputPin.outputPin logOutputPin)
            CachedOutputPin.statefulOutputPin
            (CachedOutputPin.new ([] : List InnerCall) false)
          = (CachedOutputPin.outputPin logOutputPin).set_high
              (CachedOutputPin.new ([] : List InnerCall) false))
      ∧ toggle (CachedOutputPin.outputPin logOutputPin)
            CachedOutputPin.statefulOutputPin
            (CachedOutputPin.new ([] : List InnerCall) false)
          = CachedOutputPin.new [InnerCall.setHigh] true :=
  ⟨(toggle_algorithm (CachedOutputPin.outputPin logOutputPin)
      CachedOutputPin.statefulOutputPin
      (CachedOutputPin.new ([] : List InnerCall) false)).1, rfl⟩

/-- C5: unwrapping a freshly constructed wrapper returns exactly the inner
pin that was passed in, for every inner pin value and every initial level;
`into_inner` projects the pin out unchanged and drops the cache. -/
theorem new_into_inner_roundtrip (p : σ) (b : Bool) :
    CachedOutputPin.into_inner (CachedOutputPin.new p b) = p := rfl

/-- C6: construction stores the caller-supplied initial level verbatim in
the cache; constructing with level `false` makes `is_set_low` answer true
and `is_set_high` answer false. -/
theorem new_initial_level (p : σ) (b : Bool) :
    (CachedOutputPin.new p b).state = b
      ∧ (CachedOutputPin.new p false).is_set_low = true
      ∧ (CachedOutputPin.new p false).is_set_high = false :=
  ⟨rfl, rfl, rfl⟩

/-- C7: the read-back queries are pure cache reads: their answers depend
only on the cache field and not on the inner pin state, and as calls in the
operational semantics they leave the wrapper (cache and inner pin alike)
exactly as it was. -/
theorem readback_pure (b : Bool) (p q : σ) (O : OutputPin σ)
    (c : CachedOutputPin σ) :
    CachedOutputPin.is_set_low ⟨b, p⟩ = CachedOutputPin.is_set_low ⟨b, q⟩
      ∧ CachedOutputPin.is_set_high ⟨b, p⟩ = CachedOutputPin.is_set_high ⟨b, q⟩
      ∧ CachedOutputPin.stepOp O c Op.isSetLow = c
      ∧ CachedOutputPin.stepOp O c Op.isSetHigh = c :=
  ⟨rfl, rfl, rfl, rfl⟩

/-- C8: no operation fails: running any sequence of set, toggle and
read-back calls in the error monad always yields `Except.ok`, and
construction followed by unwrap likewise yields its value outright. -/
theorem ops_never_fail (O : OutputPin σ) (ops : List Op)
    (c : CachedOutputPin σ) (p : σ) (b : Bool) :
    (∃ c2, CachedOutputPin.runOpsE O ops c = Except.ok c2)
      ∧ (∃ q, CachedOutputPin.into_inner (CachedOutputPin.new p b) = q) := by
  refine ⟨?_, ⟨p, rfl⟩⟩
  induction ops generalizing c with
  | nil => exact ⟨c, rfl⟩
  | cons op ops ih =>
      exact (ih (CachedOutputPin.stepOp O c op)).imp fun c2 h => h

/-- C9: construction performs no operation on the wrapped pin: the pin is
stored verbatim (so for the instrumented log pin its call log stays empty)
and the cache is stored verbatim. -/
theorem new_leaves_pin_untouched (p : σ) (b : Bool) :
    (CachedOutputPin.new p b).pin = p
      ∧ (CachedOutputPin.new p b).state = b
      ∧ (CachedOutputPin.new ([] : List InnerCall) true).pin = [] :=
  ⟨rfl, rfl, rfl⟩

/-- C10: the derived toggle consults only `is_set_low` — its result is
unchanged under any replacement of `is_set_high` — and on an implementation
whose two read-backs both answer false (violating the read-back invariant)
it still calls `set_low`, as the log pin records. -/
theorem toggle_ignores_is_set_high (O : OutputPin σ) (g1 g2 f : σ → Bool)
    (s : σ) :
    toggle O ⟨g1, f⟩ s = toggle O ⟨g2, f⟩ s
      ∧ toggle logOutputPin lawlessStateful [] = [InnerCall.setLow] :=
  ⟨rfl, rfl⟩

end Digital
